import Mathlib

/-!
Verification development for the core tracker module of the repository
(`src/core/mod.rs`).  The data model and the `Tracker` facade operations are
embedded as executable Lean definitions.  Code of the repository that lives in
sibling crates (the torrent repository entry, the `auth` key helpers, the clock
and the database drivers) is not part of `src/`; those parts are modelled from
the specification, as indicated by the doc comment of each such definition.
Machine integers are modelled as `Nat`/`Int` with explicit bounds where
overflow matters (`u64` checked addition in the clock).
-/

deriving instance DecidableEq for Except

namespace Torrust

/-- Upper bound of `u64`, used to model `Duration` checked addition
(`CurrentClock::now_add`). -/
def U64MAX : Nat := 18446744073709551615

/-- `TORRENT_PEERS_LIMIT` from `torrust-tracker-configuration`: the maximum
number of peers returned to an announcing client.  The spec fixes it to 74. -/
def TORRENT_PEERS_LIMIT : Nat := 74

/-- `std::net::IpAddr`: either a v4 address (four octets) or a v6 address
(modelled as its 128-bit numeric value). -/
inductive IpAddr where
  | v4 (a b c d : Nat)
  | v6 (n : Nat)
deriving DecidableEq

/-- `IpAddr::is_loopback`: v4 loopback is the `127.0.0.0/8` block, v6 loopback
is `::1`. -/
def IpAddr.is_loopback : IpAddr → Bool
  | .v4 a _ _ _ => decide (a = 127)
  | .v6 n => decide (n = 1)

/-- `std::net::SocketAddr`: an IP address plus a port. -/
structure SocketAddr where
  ip : IpAddr
  port : Nat
deriving DecidableEq

/-- `AnnounceEvent` as used by the tracker core (spec §3):
`Started`, `Updated`, `Completed`, `Stopped`. -/
inductive AnnounceEvent where
  | started
  | updated
  | completed
  | stopped
deriving DecidableEq

/-- `peer::Peer` (torrust-tracker-primitives): snapshot of one client in one
swarm.  Peer ids are opaque 20-byte values, modelled as `Nat`; byte counters
are modelled as `Nat`. -/
structure Peer where
  peer_id : Nat
  peer_addr : SocketAddr
  updated : Nat
  uploaded : Nat
  downloaded : Nat
  left : Nat
  event : AnnounceEvent
deriving DecidableEq

/-- `Peer::change_ip`: replace the IP of the peer's socket address, keeping the
port. -/
def Peer.change_ip (p : Peer) (ip : IpAddr) : Peer :=
  { p with peer_addr := { p.peer_addr with ip := ip } }

/-- `SwarmMetadata` (torrust-tracker-primitives): aggregate counts for one
swarm. -/
structure SwarmMetadata where
  complete : Nat
  downloaded : Nat
  incomplete : Nat
deriving DecidableEq

/-- `SwarmMetadata::zeroed` — all counts zero.  `SwarmMetadata::default()`
(used by `Tracker::get_swarm_metadata` for unknown torrents) derives `Default`
on three `u32` fields and is the same all-zero record. -/
def SwarmMetadata.zeroed : SwarmMetadata :=
  { complete := 0, downloaded := 0, incomplete := 0 }

/-- Does the peer list contain a peer with the given peer id? -/
def hasPeerId : List Peer → Nat → Bool
  | [], _ => false
  | q :: qs, pid => if q.peer_id = pid then true else hasPeerId qs pid

/-- Does the peer list contain a peer with the given socket address? -/
def hasAddr : List Peer → SocketAddr → Bool
  | [], _ => false
  | q :: qs, a => if q.peer_addr = a then true else hasAddr qs a

/-- Replace every peer that shares `p`'s peer id by `p` (the map
insert-on-existing-key case). -/
def replacePeer : List Peer → Peer → List Peer
  | [], _ => []
  | q :: qs, p => (if q.peer_id = p.peer_id then p else q) :: replacePeer qs p

/-- Remove every peer whose socket address equals `a`
(the `get_peers_for_client` exclusion filter). -/
def excludeAddr : List Peer → SocketAddr → List Peer
  | [], _ => []
  | q :: qs, a => if q.peer_addr = a then excludeAddr qs a else q :: excludeAddr qs a

/-- Count the active seeders of a peer list: peers with `left = 0` whose
`updated` is at or after the freshness cutoff. -/
def countSeeders : List Peer → Nat → Nat
  | [], _ => 0
  | q :: qs, cutoff =>
      (if cutoff ≤ q.updated ∧ q.left = 0 then 1 else 0) + countSeeders qs cutoff

/-- Count the active leechers of a peer list: peers with `left ≠ 0` whose
`updated` is at or after the freshness cutoff. -/
def countLeechers : List Peer → Nat → Nat
  | [], _ => 0
  | q :: qs, cutoff =>
      (if cutoff ≤ q.updated ∧ q.left ≠ 0 then 1 else 0) + countLeechers qs cutoff

/-- Modelled from the spec: the torrent-repository swarm entry (crate
`torrust-tracker-torrent-repository`, not under `src/`): a peer table plus the
persisted `downloaded` counter (spec §3 `SwarmEntry`).  The peer table is
keyed by `peer_id`: the in-crate module documentation (`src/core/mod.rs`,
JSON examples keyed by `"-qB00000000000000001"`) and the in-crate scrape test
(`it_should_return_the_swarm_metadata_for_the_requested_file_...`, which
expects `complete = 0` after a second announce that reuses the peer id with a
different address) both require peer-id keying. -/
structure Entry where
  peers : List Peer
  downloaded : Nat
deriving DecidableEq

/-- Modelled from the spec: `Entry::upsert_peer` of the torrent repository
(not under `src/`): insert or replace the peer by its key, and increment
`downloaded` by one exactly when the announced event is `Completed` and a
prior entry for this peer existed (spec §4.2 step 2; key per `Entry`). -/
def Entry.upsert_peer (e : Entry) (p : Peer) : Entry :=
  if hasPeerId e.peers p.peer_id then
    { peers := replacePeer e.peers p
      downloaded :=
        if p.event = .completed then e.downloaded + 1 else e.downloaded }
  else
    { peers := e.peers ++ [p], downloaded := e.downloaded }

/-- Modelled from the spec: `Entry::get_swarm_metadata` of the torrent
repository (not under `src/`): `complete` = active seeders, `incomplete` =
active leechers, `downloaded` = the stored counter (spec §3
`SwarmMetadata`). -/
def Entry.get_swarm_metadata (e : Entry) (cutoff : Nat) : SwarmMetadata :=
  { complete := countSeeders e.peers cutoff
    downloaded := e.downloaded
    incomplete := countLeechers e.peers cutoff }

/-- Modelled from the spec: `Entry::get_peers_for_client` of the torrent
repository (not under `src/`): the peers of the swarm excluding any peer
sharing the client's socket address, bounded by the given limit
(`TORRENT_PEERS_LIMIT` when absent) — spec §4.4. -/
def Entry.get_peers_for_client (e : Entry) (client : SocketAddr)
    (limit : Option Nat) : List Peer :=
  (excludeAddr e.peers client).take (limit.getD TORRENT_PEERS_LIMIT)

/-- Modelled from the spec: `Entry::get_peers` of the torrent repository (not
under `src/`): the peers of the swarm bounded by the given limit. -/
def Entry.get_peers (e : Entry) (limit : Option Nat) : List Peer :=
  e.peers.take (limit.getD TORRENT_PEERS_LIMIT)

/-- Association-list lookup keyed by `Nat` (first match), modelling map
lookup. -/
def alLookup {β : Type} : List (Nat × β) → Nat → Option β
  | [], _ => none
  | x :: fs, h => if x.1 = h then some x.2 else alLookup fs h

/-- Remove every pair with the given key. -/
def alErase {β : Type} : List (Nat × β) → Nat → List (Nat × β)
  | [], _ => []
  | x :: fs, h => if x.1 = h then alErase fs h else x :: alErase fs h

/-- Map insert: replace any existing binding of the key, modelling
`HashMap::insert`. -/
def alInsert {β : Type} (fs : List (Nat × β)) (h : Nat) (b : β) :
    List (Nat × β) :=
  alErase fs h ++ [(h, b)]

/-- The in-memory torrent repository: `info_hash → Entry`.  Info-hashes
(opaque 20-byte values) are modelled as `Nat`. -/
abbrev Torrents : Type := List (Nat × Entry)

/-- Modelled from the spec: `Repository::upsert_peer` (not under `src/`):
create the entry lazily on first upsert for its info-hash, then delegate to
`Entry.upsert_peer` (spec §3 lifecycles, §4.4). -/
def torrentsUpsert : Torrents → Nat → Peer → Torrents
  | [], h, p => [(h, Entry.upsert_peer { peers := [], downloaded := 0 } p)]
  | x :: ts, h, p =>
      if x.1 = h then (x.1, x.2.upsert_peer p) :: ts
      else x :: torrentsUpsert ts h p

/-- Modelled from the spec: `Repository::get_swarm_metadata` (not under
`src/`): the derived metadata of the entry, when present. -/
def torrentsGetSwarmMetadata (ts : Torrents) (h : Nat) (cutoff : Nat) :
    Option SwarmMetadata :=
  match alLookup ts h with
  | some e => some (e.get_swarm_metadata cutoff)
  | none => none

/-- `PrivateMode` configuration section: whether key expiration is checked. -/
structure PrivateMode where
  check_keys_expiration : Bool
deriving DecidableEq

/-- `TrackerPolicy` configuration section. -/
structure TrackerPolicy where
  max_peer_timeout : Nat
  persistent_torrent_completed_stat : Bool
  remove_peerless_torrents : Bool
deriving DecidableEq

/-- `AnnouncePolicy` configuration section. -/
structure AnnouncePolicy where
  interval : Nat
  interval_min : Nat
deriving DecidableEq

/-- The `net` configuration section observed by the core. -/
structure NetConfig where
  on_reverse_proxy : Bool
  external_ip : Option IpAddr
deriving DecidableEq

/-- The `Core` configuration observed by the tracker.  The source field
`private` is named `private_flag` here because `private` is a Lean keyword. -/
structure Core where
  private_flag : Bool
  listed : Bool
  net : NetConfig
  announce_policy : AnnouncePolicy
  tracker_policy : TrackerPolicy
  private_mode : Option PrivateMode
deriving DecidableEq

/-- `auth::PeerKey`: an authentication key (its 32-character token, modelled
as a `String`) with an optional expiration instant (seconds since epoch);
`none` denotes a permanent key. -/
structure PeerKey where
  key : String
  valid_until : Option Nat
deriving DecidableEq

/-- `auth::Error`: authentication failures. -/
inductive AuthError where
  | UnableToReadKey (key : String)
  | KeyExpired (key : String)
deriving DecidableEq

/-- `databases::error::Error`: the uniform database error kind. -/
inductive DbError where
  | failure
deriving DecidableEq

/-- `error::PeerKeyError`: failures of `add_peer_key`. -/
inductive PeerKeyError where
  | InvalidKey (key : String)
  | DurationOverflow (seconds_valid : Nat)
  | DatabaseError
deriving DecidableEq

/-- `error::Error`: the core authorization error. -/
inductive TrackerError where
  | TorrentNotWhitelisted (info_hash : Nat)
deriving DecidableEq

/-- Lookup of a key (its token string) in a key list, modelling the in-memory
`HashMap<Key, PeerKey>` lookup. -/
def keysFind : List PeerKey → String → Option PeerKey
  | [], _ => none
  | pk :: ks, k => if pk.key = k then some pk else keysFind ks k

/-- Remove every entry with the given key token. -/
def keysErase : List PeerKey → String → List PeerKey
  | [], _ => []
  | pk :: ks, k => if pk.key = k then keysErase ks k else pk :: keysErase ks k

/-- Map insert for the key store: replace any existing binding. -/
def keysInsert (ks : List PeerKey) (pk : PeerKey) : List PeerKey :=
  keysErase ks pk.key ++ [pk]

/-- Remove an info-hash from a whitelist, modelling `HashSet::remove`. -/
def natErase : List Nat → Nat → List Nat
  | [], _ => []
  | x :: xs, h => if x = h then natErase xs h else x :: natErase xs h

/-- Modelled from the spec: `CurrentClock::now_add` (clock crate, not under
`src/`): `now + Δ` as checked `u64` addition of seconds; `none` when the sum
is not representable. -/
def now_add (now : Nat) (seconds : Nat) : Option Nat :=
  if now + seconds ≤ U64MAX then some (now + seconds) else none

/-- Modelled from the spec: `Key` parsing (`auth` module, not under `src/`):
a key string is valid exactly when it is a 32-character alphanumeric token
(spec §3 Key); an invalid string yields a parse error carrying it. -/
def parse_key (s : String) : Except String String :=
  if s.length = 32 ∧ s.data.all Char.isAlphanum = true then .ok s
  else .error s

/-- Modelled from the spec: `auth::verify_key_expiration` (not under `src/`):
a permanent key (`valid_until = none`) never expires; an expiring key fails
with `KeyExpired` exactly when `now` is past its `valid_until` instant. -/
def verify_key_expiration (pk : PeerKey) (now : Nat) : Except AuthError Unit :=
  match pk.valid_until with
  | none => .ok ()
  | some v => if v < now then .error (.KeyExpired pk.key) else .ok ()

/-- `AnnounceData`: the announce response payload. -/
structure AnnounceData where
  peers : List Peer
  stats : SwarmMetadata
  policy : AnnouncePolicy
deriving DecidableEq

/-- `PeersWanted`: how many peers the announcing client wants. -/
inductive PeersWanted where
  | All
  | Only (amount : Nat)
deriving DecidableEq

/-- `usize::try_from` for an `i32` value: the conversion succeeds exactly when
the value is non-negative and fits the platform's `usize` (whose maximum is
passed explicitly). -/
def usize_try_from_i32 (value : Int) (usizeMax : Nat) : Option Nat :=
  if 0 ≤ value ∧ value ≤ (usizeMax : Int) then some value.toNat else none

/-- `usize::try_from` for a `u32` value. -/
def usize_try_from_u32 (value : Nat) (usizeMax : Nat) : Option Nat :=
  if value ≤ usizeMax then some value else none

/-- `PeersWanted::only`: convert the `u32` limit, falling back to
`TORRENT_PEERS_LIMIT` when the conversion fails. -/
def PeersWanted.only (limit : Nat) (usizeMax : Nat) : PeersWanted :=
  match usize_try_from_u32 limit usizeMax with
  | some amount => .Only amount
  | none => .Only TORRENT_PEERS_LIMIT

/-- `impl From<i32> for PeersWanted`: positive values that convert to `usize`
become `Only`; everything else becomes `All`. -/
def PeersWanted.fromI32 (value : Int) (usizeMax : Nat) : PeersWanted :=
  if value > 0 then
    match usize_try_from_i32 value usizeMax with
    | some peers_wanted => .Only peers_wanted
    | none => .All
  else .All

/-- `PeersWanted::limit`: `All` is treated as `TORRENT_PEERS_LIMIT`. -/
def PeersWanted.limit : PeersWanted → Nat
  | .All => TORRENT_PEERS_LIMIT
  | .Only amount => amount

/-- `assign_ip_address_to_peer` (`src/core/mod.rs`): keep the tracker's
external IP when it is set and the remote client IP is loopback, otherwise
keep the remote client IP. -/
def assign_ip_address_to_peer (remote_client_ip : IpAddr)
    (tracker_external_ip : Option IpAddr) : IpAddr :=
  match tracker_external_ip.filter (fun _ => remote_client_ip.is_loopback) with
  | some host_ip => host_ip
  | none => remote_client_ip

/-- The `Tracker` facade state: configuration, the in-memory key store,
whitelist and torrent repository, plus the state behind the persistence port
(persisted keys, persisted whitelist, persisted torrent `downloaded`
counters).  Database calls are fallible; each operation that touches the
database takes an explicit `dbFails` flag standing for the outcome of its
database calls. -/
structure Tracker where
  config : Core
  keys : List PeerKey
  whitelist : List Nat
  torrents : Torrents
  dbKeys : List PeerKey
  dbWhitelist : List Nat
  dbTorrents : List (Nat × Nat)
deriving DecidableEq

/-- `Tracker::is_private`. -/
def Tracker.is_private (t : Tracker) : Bool := t.config.private_flag

/-- `Tracker::is_listed`. -/
def Tracker.is_listed (t : Tracker) : Bool := t.config.listed

/-- `Tracker::get_announce_policy`. -/
def Tracker.get_announce_policy (t : Tracker) : AnnouncePolicy :=
  t.config.announce_policy

/-- `Tracker::is_info_hash_whitelisted`: membership in the in-memory
whitelist. -/
def Tracker.is_info_hash_whitelisted (t : Tracker) (info_hash : Nat) : Bool :=
  decide (info_hash ∈ t.whitelist)

/-- `Tracker::authorize`: `Ok` unless the tracker is listed and the info-hash
is not whitelisted. -/
def Tracker.authorize (t : Tracker) (info_hash : Nat) :
    Except TrackerError Unit :=
  if t.is_listed = false then .ok ()
  else if t.is_info_hash_whitelisted info_hash then .ok ()
  else .error (.TorrentNotWhitelisted info_hash)

/-- `Tracker::verify_auth_key`: unknown keys fail with `UnableToReadKey`;
known keys are checked for expiration unless `private_mode` is present and
disables the check. -/
def Tracker.verify_auth_key (t : Tracker) (key : String) (now : Nat) :
    Except AuthError Unit :=
  match keysFind t.keys key with
  | none => .error (.UnableToReadKey key)
  | some pk =>
      match t.config.private_mode with
      | some pm =>
          if pm.check_keys_expiration then verify_key_expiration pk now
          else .ok ()
      | none => verify_key_expiration pk now

/-- `Tracker::authenticate`: a no-op `Ok` unless the tracker is private. -/
def Tracker.authenticate (t : Tracker) (key : String) (now : Nat) :
    Except AuthError Unit :=
  if t.is_private then t.verify_auth_key key now else .ok ()

/-- Whether the effective key-expiration check is on: `check_keys_expiration`
of `private_mode`, defaulting to `true` when the section is absent. -/
def check_keys_expiration_enabled (c : Core) : Bool :=
  match c.private_mode with
  | some pm => pm.check_keys_expiration
  | none => true

/-- `Tracker::add_auth_key`: write the key to the database first; on failure
the error is returned and the in-memory store is left untouched; on success
the key is inserted into both. -/
def Tracker.add_auth_key (t : Tracker) (key : String)
    (valid_until : Option Nat) (dbFails : Bool) :
    Except DbError PeerKey × Tracker :=
  if dbFails then (.error .failure, t)
  else
    let auth_key : PeerKey := { key := key, valid_until := valid_until }
    (.ok auth_key,
     { t with
        dbKeys := keysInsert t.dbKeys auth_key
        keys := keysInsert t.keys auth_key })

/-- `Tracker::generate_auth_key`: generate a key (the fresh token is passed in
as `newKey`), set `valid_until = now + lifetime` when a lifetime is given,
then persist and insert exactly as `add_auth_key`. -/
def Tracker.generate_auth_key (t : Tracker) (newKey : String)
    (lifetime : Option Nat) (now : Nat) (dbFails : Bool) :
    Except DbError PeerKey × Tracker :=
  t.add_auth_key newKey (lifetime.map (fun d => now + d)) dbFails

/-- `Tracker::remove_auth_key`: remove from the database first; on failure the
error is returned and the in-memory store is left untouched. -/
def Tracker.remove_auth_key (t : Tracker) (key : String) (dbFails : Bool) :
    Except DbError Unit × Tracker :=
  if dbFails then (.error .failure, t)
  else
    (.ok (),
     { t with
        dbKeys := keysErase t.dbKeys key
        keys := keysErase t.keys key })

/-- `Tracker::load_keys_from_database`: replace the in-memory key map with the
persisted contents. -/
def Tracker.load_keys_from_database (t : Tracker) (dbFails : Bool) :
    Except DbError Unit × Tracker :=
  if dbFails then (.error .failure, t)
  else (.ok (), { t with keys := t.dbKeys })

/-- `Tracker::add_peer_key`: dispatch on the request shape.  With a
pre-generated key and a lifetime, the duration overflow check
(`CurrentClock::now_add`) runs before the key string is parsed; parse failure
yields `InvalidKey`, database failure yields `DatabaseError`.  `genKey` stands
for the randomly generated token of the generating branches. -/
def Tracker.add_peer_key (t : Tracker) (opt_key : Option String)
    (opt_seconds_valid : Option Nat) (now : Nat) (genKey : String)
    (dbFails : Bool) : Except PeerKeyError PeerKey × Tracker :=
  match opt_key with
  | some pre_existing_key =>
      match opt_seconds_valid with
      | some seconds_valid =>
          match now_add now seconds_valid with
          | none => (.error (.DurationOverflow seconds_valid), t)
          | some valid_until =>
              match parse_key pre_existing_key with
              | .ok key =>
                  match t.add_auth_key key (some valid_until) dbFails with
                  | (.ok auth_key, t2) => (.ok auth_key, t2)
                  | (.error _, t2) => (.error .DatabaseError, t2)
              | .error _ => (.error (.InvalidKey pre_existing_key), t)
      | none =>
          match parse_key pre_existing_key with
          | .ok key =>
              match t.add_auth_key key none dbFails with
              | (.ok auth_key, t2) => (.ok auth_key, t2)
              | (.error _, t2) => (.error .DatabaseError, t2)
          | .error _ => (.error (.InvalidKey pre_existing_key), t)
  | none =>
      match t.generate_auth_key genKey opt_seconds_valid now dbFails with
      | (.ok auth_key, t2) => (.ok auth_key, t2)
      | (.error _, t2) => (.error .DatabaseError, t2)

/-- `Tracker::add_torrent_to_whitelist`: database first (a no-op there when
already whitelisted), then the in-memory set; on database failure the error
is returned and memory is left untouched. -/
def Tracker.add_torrent_to_whitelist (t : Tracker) (info_hash : Nat)
    (dbFails : Bool) : Except DbError Unit × Tracker :=
  if dbFails then (.error .failure, t)
  else
    (.ok (),
     { t with
        dbWhitelist :=
          if info_hash ∈ t.dbWhitelist then t.dbWhitelist
          else t.dbWhitelist ++ [info_hash]
        whitelist :=
          if info_hash ∈ t.whitelist then t.whitelist
          else t.whitelist ++ [info_hash] })

/-- `Tracker::remove_torrent_from_whitelist`: database first (a no-op there
when absent), then the in-memory set; on database failure the error is
returned and memory is left untouched. -/
def Tracker.remove_torrent_from_whitelist (t : Tracker) (info_hash : Nat)
    (dbFails : Bool) : Except DbError Unit × Tracker :=
  if dbFails then (.error .failure, t)
  else
    (.ok (),
     { t with
        dbWhitelist := natErase t.dbWhitelist info_hash
        whitelist := natErase t.whitelist info_hash })

/-- `Tracker::get_swarm_metadata` (the scrape helper): the entry's metadata,
or the zeroed record when the torrent is unknown to the repository. -/
def Tracker.get_swarm_metadata (t : Tracker) (info_hash : Nat)
    (cutoff : Nat) : SwarmMetadata :=
  match alLookup t.torrents info_hash with
  | some torrent_entry => torrent_entry.get_swarm_metadata cutoff
  | none => SwarmMetadata.zeroed

/-- The metadata attached to one scrape entry: the current metadata when
`authorize` succeeds, the zeroed record otherwise. -/
def scrapeValue (t : Tracker) (info_hash : Nat) (cutoff : Nat) :
    SwarmMetadata :=
  match t.authorize info_hash with
  | .ok _ => t.get_swarm_metadata info_hash cutoff
  | .error _ => SwarmMetadata.zeroed

/-- The loop of `Tracker::scrape`: for each requested info-hash insert its
entry (`ScrapeData::add_file` is a map insert). -/
def scrapeLoop (t : Tracker) (cutoff : Nat) :
    List Nat → List (Nat × SwarmMetadata) → List (Nat × SwarmMetadata)
  | [], acc => acc
  | h :: rest, acc =>
      scrapeLoop t cutoff rest (alInsert acc h (scrapeValue t h cutoff))

/-- `Tracker::scrape`: one map entry per requested info-hash. -/
def Tracker.scrape (t : Tracker) (info_hashes : List Nat) (cutoff : Nat) :
    List (Nat × SwarmMetadata) :=
  scrapeLoop t cutoff info_hashes []

/-- `Tracker::get_peers_for`: peers of the swarm excluding the requesting
client, bounded by `max(limit, TORRENT_PEERS_LIMIT)`. -/
def Tracker.get_peers_for (t : Tracker) (info_hash : Nat) (p : Peer)
    (limit : Nat) : List Peer :=
  match alLookup t.torrents info_hash with
  | none => []
  | some entry =>
      entry.get_peers_for_client p.peer_addr (some (max limit TORRENT_PEERS_LIMIT))

/-- `Tracker::get_torrent_peers`: up to `TORRENT_PEERS_LIMIT` peers of the
swarm. -/
def Tracker.get_torrent_peers (t : Tracker) (info_hash : Nat) : List Peer :=
  match alLookup t.torrents info_hash with
  | none => []
  | some entry => entry.get_peers (some TORRENT_PEERS_LIMIT)

/-- `Tracker::upsert_peer_and_get_stats`: metadata before, upsert, metadata
after; when the metadata changed, `persist_stats` runs, which attempts the
database write only under `persistent_torrent_completed_stat` and discards
its outcome (`drop(...)`).  Returns the metadata after, the new state, and
whether the database write was attempted. -/
def Tracker.upsert_peer_and_get_stats (t : Tracker) (info_hash : Nat)
    (p : Peer) (cutoff : Nat) (dbFails : Bool) :
    SwarmMetadata × Tracker × Bool :=
  let swarm_metadata_before :=
    (torrentsGetSwarmMetadata t.torrents info_hash cutoff).getD SwarmMetadata.zeroed
  let torrents2 := torrentsUpsert t.torrents info_hash p
  let swarm_metadata_after :=
    (torrentsGetSwarmMetadata torrents2 info_hash cutoff).getD SwarmMetadata.zeroed
  let attempted :=
    decide (¬ swarm_metadata_before = swarm_metadata_after) &&
      t.config.tracker_policy.persistent_torrent_completed_stat
  let dbTorrents2 :=
    if attempted && !dbFails then
      alInsert t.dbTorrents info_hash swarm_metadata_after.downloaded
    else t.dbTorrents
  (swarm_metadata_after,
   { t with torrents := torrents2, dbTorrents := dbTorrents2 },
   attempted)

/-- `Tracker::announce`: assign the effective IP to the peer, upsert it and
measure the swarm, collect the bounded peer list excluding the announcing
client, and return the response with the configured policy.  The function is
total: it returns `AnnounceData` in every mode and cannot fail.  Returns the
response, the mutated peer and the new tracker state. -/
def Tracker.announce (t : Tracker) (info_hash : Nat) (p : Peer)
    (remote_client_ip : IpAddr) (peers_wanted : PeersWanted) (cutoff : Nat)
    (dbFails : Bool) : AnnounceData × Peer × Tracker :=
  let p2 := p.change_ip
    (assign_ip_address_to_peer remote_client_ip t.config.net.external_ip)
  let r := t.upsert_peer_and_get_stats info_hash p2 cutoff dbFails
  let peers := r.2.1.get_peers_for info_hash p2 peers_wanted.limit
  ({ peers := peers, stats := r.1, policy := t.get_announce_policy }, p2, r.2.1)

/-- Keys of an association list. -/
def alKeys {β : Type} (fs : List (Nat × β)) : List Nat := fs.map Prod.fst

/-- Whether the repository's entry for `h` holds a peer with the given peer
id (the "prior entry for this peer existed" condition of the `downloaded`
counter, with the entry's actual key). -/
def torrentsHasPeerId (ts : Torrents) (h pid : Nat) : Bool :=
  match alLookup ts h with
  | some e => hasPeerId e.peers pid
  | none => false

/-- The peer list of the repository's entry for `h` (empty when absent). -/
def torrentsPeers (ts : Torrents) (h : Nat) : List Peer :=
  match alLookup ts h with
  | some e => e.peers
  | none => []

/-- Replace every peer that shares `p`'s socket address by `p`. -/
def replacePeerByAddr : List Peer → Peer → List Peer
  | [], _ => []
  | q :: qs, p =>
      (if q.peer_addr = p.peer_addr then p else q) :: replacePeerByAddr qs p

/-- The spec's words for the swarm-entry upsert, keyed by `socket_addr`
(spec §3, §4.2 step 2: "insert-or-replace the peer by `socket_addr`"), kept
for comparison with `Entry.upsert_peer` (the peer-id-keyed table this code
base uses): the in-crate scrape test distinguishes the two. -/
def Entry.upsert_peer_addr_keyed_spec (e : Entry) (p : Peer) : Entry :=
  if hasAddr e.peers p.peer_addr then
    { peers := replacePeerByAddr e.peers p
      downloaded :=
        if p.event = .completed then e.downloaded + 1 else e.downloaded }
  else
    { peers := e.peers ++ [p], downloaded := e.downloaded }

/-! Concrete fixtures used by witnesses and counterexamples. -/

/-- The `complete_peer()` fixture of the in-crate tests: peer id 0 at
`126.0.0.1:8080`, `left = 0`, event `Completed`. -/
def peerCompleteTest : Peer :=
  { peer_id := 0, peer_addr := { ip := .v4 126 0 0 1, port := 8080 }
    updated := 100, uploaded := 0, downloaded := 0, left := 0
    event := .completed }

/-- The `incomplete_peer()` fixture of the in-crate tests: the same peer id 0
at `126.0.0.1:8080`, `left = 1000`, event `Started`. -/
def peerIncompleteTest : Peer :=
  { peer_id := 0, peer_addr := { ip := .v4 126 0 0 1, port := 8080 }
    updated := 100, uploaded := 0, downloaded := 0, left := 1000
    event := .started }

/-- A public-mode configuration (no private mode, not listed, no external
IP). -/
def cfg0 : Core :=
  { private_flag := false
    listed := false
    net := { on_reverse_proxy := false, external_ip := none }
    announce_policy := { interval := 120, interval_min := 120 }
    tracker_policy :=
      { max_peer_timeout := 900
        persistent_torrent_completed_stat := false
        remove_peerless_torrents := false }
    private_mode := none }

/-- A fresh public tracker with empty stores. -/
def trEmpty : Tracker :=
  { config := cfg0, keys := [], whitelist := [], torrents := []
    dbKeys := [], dbWhitelist := [], dbTorrents := [] }

/-- A stored peer: id 1 at `126.0.0.1:8080`. -/
def peerQ : Peer :=
  { peer_id := 1, peer_addr := { ip := .v4 126 0 0 1, port := 8080 }
    updated := 100, uploaded := 0, downloaded := 0, left := 1000
    event := .started }

/-- A swarm holding only `peerQ`, with `downloaded = 0`. -/
def entry1 : Entry := { peers := [peerQ], downloaded := 0 }

/-- A tracker whose repository holds `entry1` under info-hash 7. -/
def tr1 : Tracker := { trEmpty with torrents := [(7, entry1)] }

/-- A `Completed` announce reusing `peerQ`'s peer id from a different socket
address. -/
def pSameIdNewAddr : Peer :=
  { peer_id := 1, peer_addr := { ip := .v4 126 0 0 2, port := 9090 }
    updated := 200, uploaded := 0, downloaded := 0, left := 0
    event := .completed }

/-- A `Completed` announce from `peerQ`'s socket address under a different
peer id. -/
def pNewIdSameAddr : Peer :=
  { peer_id := 2, peer_addr := { ip := .v4 126 0 0 1, port := 8080 }
    updated := 200, uploaded := 0, downloaded := 0, left := 0
    event := .completed }

/-- The `i`-th of 75 distinct peers (distinct ids and distinct addresses). -/
def mkPeer (i : Nat) : Peer :=
  { peer_id := i, peer_addr := { ip := .v4 10 0 0 i, port := 1000 }
    updated := 0, uploaded := 0, downloaded := 0, left := 1
    event := .started }

/-- A swarm of 75 distinct peers. -/
def entry75 : Entry := { peers := (List.range 75).map mkPeer, downloaded := 0 }

/-- A tracker whose repository holds the 75-peer swarm under info-hash 0. -/
def tr75 : Tracker := { trEmpty with torrents := [(0, entry75)] }

/-- An announcing peer distinct from all 75 stored peers. -/
def pAnn : Peer :=
  { peer_id := 999, peer_addr := { ip := .v4 10 0 1 1, port := 1000 }
    updated := 0, uploaded := 0, downloaded := 0, left := 0
    event := .started }

/-- A valid 32-character alphanumeric key token. -/
def keyGood : String := "YZSl4lMZupRuOpSRC3krIKR5BPB14nrJ"

/-- A string that is not a valid key (only 3 characters). -/
def keyBadStr : String := "abc"

/-- A private tracker holding `keyGood` expired at instant 50. -/
def trPriv : Tracker :=
  { trEmpty with
      config := { cfg0 with private_flag := true }
      keys := [{ key := keyGood, valid_until := some 50 }] }

/-- A listed tracker: info-hash 5 is whitelisted and has a swarm, info-hash 6
has a swarm but is not whitelisted. -/
def trListed : Tracker :=
  { trEmpty with
      config := { cfg0 with listed := true }
      whitelist := [5]
      torrents := [(5, entry1), (6, entry1)] }

/-! Helper lemmas about the association-list operations. -/

theorem alLookup_alInsert {β : Type} (fs : List (Nat × β)) (h h' : Nat)
    (b : β) :
    alLookup (alInsert fs h b) h' =
      if h' = h then some b else alLookup fs h' := by
  unfold alInsert
  induction fs with
  | nil =>
      by_cases he : h' = h
      · simp [alLookup, he]
      · have : ¬ h = h' := by omega
        simp [alLookup, he, this]
  | cons x fs ih =>
      simp only [alErase]
      by_cases hx : x.1 = h
      · rw [if_pos hx, ih]
        by_cases he : h' = h
        · simp [he]
        · have hxh : ¬ x.1 = h' := by omega
          simp [he, alLookup, hxh]
      · rw [if_neg hx, List.cons_append, alLookup]
        by_cases hxh : x.1 = h'
        · have he : ¬ h' = h := by omega
          simp [hxh, he, alLookup]
        · rw [if_neg hxh, ih]
          by_cases he : h' = h <;> simp [he, alLookup, hxh]

theorem mem_alKeys_alErase {β : Type} {fs : List (Nat × β)} {h a : Nat}
    (ha : a ∈ alKeys (alErase fs h)) : a ∈ alKeys fs := by
  induction fs with
  | nil => simp [alErase, alKeys] at ha
  | cons x fs ih =>
      simp only [alErase] at ha
      by_cases hx : x.1 = h
      · rw [if_pos hx] at ha
        exact List.mem_cons.mpr (Or.inr (ih ha))
      · rw [if_neg hx] at ha
        simp only [alKeys, List.map_cons, List.mem_cons] at ha ⊢
        rcases ha with ha | ha
        · exact Or.inl ha
        · exact Or.inr (ih ha)

theorem not_mem_alKeys_alErase {β : Type} (fs : List (Nat × β)) (h : Nat) :
    h ∉ alKeys (alErase fs h) := by
  induction fs with
  | nil => simp [alErase, alKeys]
  | cons x fs ih =>
      simp only [alErase]
      by_cases hx : x.1 = h
      · simpa [hx] using ih
      · simp only [alKeys, List.map_cons, List.mem_cons] at ih ⊢
        rw [if_neg hx]
        simp only [alKeys, List.map_cons, List.mem_cons]
        intro hmem
        rcases hmem with hmem | hmem
        · exact hx hmem.symm
        · exact ih hmem

theorem nodup_alKeys_alErase {β : Type} (fs : List (Nat × β)) (h : Nat)
    (hnd : (alKeys fs).Nodup) : (alKeys (alErase fs h)).Nodup := by
  induction fs with
  | nil => simp [alErase, alKeys]
  | cons x fs ih =>
      simp only [alKeys, List.map_cons, List.nodup_cons] at hnd
      simp only [alErase]
      by_cases hx : x.1 = h
      · rw [if_pos hx]; exact ih hnd.2
      · rw [if_neg hx]
        simp only [alKeys, List.map_cons, List.nodup_cons]
        exact ⟨fun hmem => hnd.1 (mem_alKeys_alErase hmem), ih hnd.2⟩

theorem nodup_alKeys_alInsert {β : Type} (fs : List (Nat × β)) (h : Nat)
    (b : β) (hnd : (alKeys fs).Nodup) : (alKeys (alInsert fs h b)).Nodup := by
  unfold alInsert
  have hmap : alKeys (alErase fs h ++ [(h, b)]) =
      alKeys (alErase fs h) ++ [h] := by
    simp [alKeys]
  rw [hmap]
  refine List.Nodup.append (nodup_alKeys_alErase fs h hnd)
    (List.nodup_singleton h) ?_
  intro a ha hb
  have hab : a = h := by simpa using hb
  rw [hab] at ha
  exact not_mem_alKeys_alErase fs h ha

theorem alLookup_torrentsUpsert (ts : Torrents) (h h' : Nat) (p : Peer) :
    alLookup (torrentsUpsert ts h p) h' =
      if h' = h then
        some (match alLookup ts h with
              | some e => e.upsert_peer p
              | none => Entry.upsert_peer { peers := [], downloaded := 0 } p)
      else alLookup ts h' := by
  induction ts with
  | nil =>
      by_cases he : h' = h
      · simp [torrentsUpsert, alLookup, he]
      · have : ¬ h = h' := by omega
        simp [torrentsUpsert, alLookup, he, this]
  | cons x ts ih =>
      simp only [torrentsUpsert]
      by_cases hx : x.1 = h
      · rw [if_pos hx]
        by_cases he : h' = h
        · subst he
          simp [alLookup, hx]
        · have hxh : ¬ x.1 = h' := by omega
          simp [alLookup, hxh, he]
      · rw [if_neg hx]
        by_cases he : h' = h
        · subst he
          simp [alLookup, hx, ih]
        · by_cases hxh : x.1 = h' <;> simp [alLookup, hx, he, hxh, ih]

/-! Helper lemmas about the peer-list operations. -/

theorem mem_excludeAddr {l : List Peer} {a : SocketAddr} {q : Peer}
    (hq : q ∈ excludeAddr l a) : ¬ q.peer_addr = a := by
  induction l with
  | nil => simp [excludeAddr] at hq
  | cons x l ih =>
      simp only [excludeAddr] at hq
      by_cases hx : x.peer_addr = a
      · rw [if_pos hx] at hq
        exact ih hq
      · rw [if_neg hx] at hq
        rcases List.mem_cons.mp hq with h1 | h1
        · subst h1; exact hx
        · exact ih h1

theorem mem_replacePeer_of_hasPeerId {l : List Peer} {p : Peer}
    (hl : hasPeerId l p.peer_id = true) : p ∈ replacePeer l p := by
  induction l with
  | nil => simp [hasPeerId] at hl
  | cons q l ih =>
      simp only [hasPeerId] at hl
      simp only [replacePeer]
      by_cases hq : q.peer_id = p.peer_id
      · simp [hq]
      · rw [if_neg hq] at hl
        exact List.mem_cons.mpr (Or.inr (ih hl))

theorem mem_upsert_peer (e : Entry) (p : Peer) : p ∈ (e.upsert_peer p).peers := by
  unfold Entry.upsert_peer
  by_cases hmem : hasPeerId e.peers p.peer_id
  · simp only [if_pos hmem]
    exact mem_replacePeer_of_hasPeerId hmem
  · simp only [if_neg hmem]
    simp

theorem upsert_peer_downloaded (e : Entry) (p : Peer) :
    (e.upsert_peer p).downloaded =
      e.downloaded +
        (if p.event = .completed ∧ hasPeerId e.peers p.peer_id = true
         then 1 else 0) := by
  unfold Entry.upsert_peer
  by_cases hmem : hasPeerId e.peers p.peer_id
  · by_cases hev : p.event = .completed <;> simp [hmem, hev]
  · simp [hmem]

/-! Helper lemmas about the key-store operations. -/

theorem keysFind_keysErase (ks : List PeerKey) (k : String) :
    keysFind (keysErase ks k) k = none := by
  induction ks with
  | nil => rfl
  | cons pk ks ih =>
      simp only [keysErase]
      by_cases hx : pk.key = k
      · rw [if_pos hx]; exact ih
      · rw [if_neg hx, keysFind, if_neg hx]; exact ih

theorem keysFind_keysInsert (ks : List PeerKey) (pk : PeerKey) :
    keysFind (keysInsert ks pk) pk.key = some pk := by
  unfold keysInsert
  induction ks with
  | nil => simp [keysFind]
  | cons q ks ih =>
      simp only [keysErase]
      by_cases hx : q.key = pk.key
      · rw [if_pos hx]; exact ih
      · rw [if_neg hx, List.cons_append, keysFind, if_neg hx]; exact ih

theorem not_mem_natErase (w : List Nat) (h : Nat) : h ∉ natErase w h := by
  induction w with
  | nil => simp [natErase]
  | cons x xs ih =>
      simp only [natErase]
      by_cases hx : x = h
      · rw [if_pos hx]; exact ih
      · rw [if_neg hx]
        intro hmem
        rcases List.mem_cons.mp hmem with h1 | h1
        · exact hx h1.symm
        · exact ih h1

/-! Helper lemmas about the scrape loop. -/

theorem alLookup_scrapeLoop (t : Tracker) (cutoff : Nat) (hs : List Nat)
    (acc : List (Nat × SwarmMetadata)) (h : Nat) :
    alLookup (scrapeLoop t cutoff hs acc) h =
      if h ∈ hs then some (scrapeValue t h cutoff) else alLookup acc h := by
  induction hs generalizing acc with
  | nil => simp [scrapeLoop]
  | cons h0 rest ih =>
      simp only [scrapeLoop]
      rw [ih, alLookup_alInsert]
      by_cases hmem : h ∈ rest
      · simp [hmem]
      · by_cases he : h = h0
        · subst he; simp [hmem]
        · simp [hmem, he]

theorem nodup_alKeys_scrapeLoop (t : Tracker) (cutoff : Nat) (hs : List Nat)
    (acc : List (Nat × SwarmMetadata)) (hnd : (alKeys acc).Nodup) :
    (alKeys (scrapeLoop t cutoff hs acc)).Nodup := by
  induction hs generalizing acc with
  | nil => simpa [scrapeLoop] using hnd
  | cons h0 rest ih =>
      simp only [scrapeLoop]
      exact ih _ (nodup_alKeys_alInsert acc h0 _ hnd)

theorem mem_torrentsPeers_upsert (ts : Torrents) (h : Nat) (p : Peer) :
    p ∈ torrentsPeers (torrentsUpsert ts h p) h := by
  unfold torrentsPeers
  rw [alLookup_torrentsUpsert, if_pos rfl]
  cases alLookup ts h with
  | some e => exact mem_upsert_peer e p
  | none => exact mem_upsert_peer _ p

/-! Claim theorems. -/

/-- Claim C1 (amended): for every announce upsert
(`upsert_peer_and_get_stats`), the swarm's `downloaded` counter increments by
exactly one iff the announced peer's event is `Completed` and a prior entry
for this peer — keyed by `peer_id`, the key used by this code base — was
already present in the swarm before the upsert; in particular a
first-sighting `Completed` announce leaves `downloaded` unchanged. -/
theorem upsert_downloaded_increment (t : Tracker) (info_hash : Nat) (p : Peer)
    (cutoff : Nat) (dbFails : Bool) :
    ((t.upsert_peer_and_get_stats info_hash p cutoff dbFails).1).downloaded =
      ((torrentsGetSwarmMetadata t.torrents info_hash cutoff).getD
          SwarmMetadata.zeroed).downloaded +
        (if p.event = .completed ∧
            torrentsHasPeerId t.torrents info_hash p.peer_id = true
         then 1 else 0) := by
  simp only [Tracker.upsert_peer_and_get_stats]
  unfold torrentsGetSwarmMetadata torrentsHasPeerId
  rw [alLookup_torrentsUpsert, if_pos rfl]
  cases hl : alLookup t.torrents info_hash with
  | none =>
      simp [Entry.get_swarm_metadata, SwarmMetadata.zeroed, Entry.upsert_peer,
        hasPeerId]
  | some e =>
      simp [Entry.get_swarm_metadata, upsert_peer_downloaded e p]

/-- Claim C1 (counterexample): the claim's "a peer with the same
`socket_addr` was already present" condition is false on this code base.  At
the concrete one-peer swarm `tr1` (its entry holds only `peerQ`,
`downloaded = 0`): a `Completed` announce reusing `peerQ`'s peer id from a
fresh socket address increments `downloaded` although no stored peer shares
its address, and a `Completed` announce from `peerQ`'s socket address under
a fresh peer id leaves `downloaded` unchanged although a stored peer shares
its address. -/
theorem downloaded_not_keyed_by_socket_addr :
    entry1.downloaded = 0
    ∧ ((tr1.upsert_peer_and_get_stats 7 pSameIdNewAddr 0 false).1).downloaded = 1
    ∧ hasAddr entry1.peers pSameIdNewAddr.peer_addr = false
    ∧ pSameIdNewAddr.event = .completed
    ∧ ((tr1.upsert_peer_and_get_stats 7 pNewIdSameAddr 0 false).1).downloaded = 0
    ∧ hasAddr entry1.peers pNewIdSameAddr.peer_addr = true
    ∧ pNewIdSameAddr.event = .completed := by
  decide

/-- Claim C9: `assign_ip_address_to_peer` returns the external IP exactly
when the remote client IP is loopback (v4 `127.0.0.0/8`, v6 `::1`) and an
external IP is configured, and the remote client IP in every other case;
`announce` overwrites the stored peer's IP with this result (the mutated
peer is what gets stored in the swarm) — e.g. remote `127.0.0.1` with
external IP `126.0.0.1` stores `126.0.0.1`, and with no external IP stores
`127.0.0.1`. -/
theorem assign_ip_loopback_rule (remote e : IpAddr) (a b c d n : Nat)
    (t : Tracker) (info_hash : Nat) (p : Peer) (wanted : PeersWanted)
    (cutoff : Nat) (dbFails : Bool) :
    (assign_ip_address_to_peer remote none = remote)
    ∧ (assign_ip_address_to_peer remote (some e) =
        if remote.is_loopback = true then e else remote)
    ∧ ((IpAddr.v4 a b c d).is_loopback = decide (a = 127))
    ∧ ((IpAddr.v6 n).is_loopback = decide (n = 1))
    ∧ (assign_ip_address_to_peer (.v4 127 0 0 1) (some (.v4 126 0 0 1)) =
        .v4 126 0 0 1)
    ∧ (assign_ip_address_to_peer (.v4 127 0 0 1) none = .v4 127 0 0 1)
    ∧ ((t.announce info_hash p remote wanted cutoff dbFails).2.1 =
        p.change_ip
          (assign_ip_address_to_peer remote t.config.net.external_ip))
    ∧ (p.change_ip (assign_ip_address_to_peer remote t.config.net.external_ip)
        ∈ torrentsPeers
            ((t.announce info_hash p remote wanted cutoff dbFails).2.2).torrents
            info_hash) := by
  refine ⟨rfl, ?_, rfl, rfl, by decide, rfl, rfl, ?_⟩
  · by_cases hl : remote.is_loopback = true <;>
      simp [assign_ip_address_to_peer, Option.filter, hl]
  · simp only [Tracker.announce, Tracker.upsert_peer_and_get_stats]
    exact mem_torrentsPeers_upsert t.torrents info_hash _

/-- Claim C10: conversions into `PeersWanted` never fail:
`PeersWanted::from(v)` yields `All` when `v ≤ 0` or when `v` does not convert
to `usize`, and `Only{amount = v}` otherwise; `PeersWanted::only(limit)`
yields `Only` with the converted amount, falling back to
`Only{TORRENT_PEERS_LIMIT}` when the conversion fails; and `All` is treated
as a limit of exactly `TORRENT_PEERS_LIMIT = 74`. -/
theorem peers_wanted_total_conversions (value : Int)
    (usizeMax limit amount : Nat) :
    (PeersWanted.fromI32 value usizeMax =
      if value ≤ 0 then .All
      else if value ≤ (usizeMax : Int) then .Only value.toNat else .All)
    ∧ (PeersWanted.only limit usizeMax =
        if limit ≤ usizeMax then .Only limit else .Only TORRENT_PEERS_LIMIT)
    ∧ PeersWanted.All.limit = TORRENT_PEERS_LIMIT
    ∧ (PeersWanted.Only amount).limit = amount
    ∧ TORRENT_PEERS_LIMIT = 74 := by
  refine ⟨?_, ?_, rfl, rfl, rfl⟩
  · unfold PeersWanted.fromI32 usize_try_from_i32
    by_cases h1 : value ≤ 0
    · have h2 : ¬ value > 0 := by omega
      simp [h1, h2]
    · have hpos : value > 0 := by omega
      have h0 : (0 : Int) ≤ value := by omega
      by_cases h2 : value ≤ (usizeMax : Int)
      · simp [hpos, h0, h1, h2]
      · simp [hpos, h0, h1, h2]
  · unfold PeersWanted.only usize_try_from_u32
    by_cases hc : limit ≤ usizeMax <;> simp [hc]

theorem get_peers_for_length_le (t : Tracker) (h : Nat) (p : Peer)
    (limit : Nat) :
    (t.get_peers_for h p limit).length ≤ max limit TORRENT_PEERS_LIMIT := by
  unfold Tracker.get_peers_for
  cases alLookup t.torrents h with
  | none => simp
  | some entry =>
      unfold Entry.get_peers_for_client
      simp only [Option.getD_some]
      rw [List.length_take]
      exact min_le_left _ _

theorem mem_get_peers_for {t : Tracker} {h : Nat} {p : Peer} {limit : Nat}
    {q : Peer} (hq : q ∈ t.get_peers_for h p limit) :
    ¬ q.peer_addr = p.peer_addr := by
  unfold Tracker.get_peers_for at hq
  cases hl : alLookup t.torrents h with
  | none => rw [hl] at hq; simp at hq
  | some entry =>
      rw [hl] at hq
      unfold Entry.get_peers_for_client at hq
      exact mem_excludeAddr (List.take_subset _ _ hq)

/-- Claim C3 (amended): for every announce the returned peer list is bounded
by `max(peers_wanted.limit, TORRENT_PEERS_LIMIT)` — at most 74 peers for
`All` or `Only n` with `n ≤ 74`, but a request for more than 74 peers is not
clamped to 74: it raises the cap to the requested amount. -/
theorem announce_peer_list_bounded_by_requested_max (t : Tracker)
    (info_hash : Nat) (p : Peer) (remote : IpAddr) (wanted : PeersWanted)
    (cutoff : Nat) (dbFails : Bool) :
    ((t.announce info_hash p remote wanted cutoff dbFails).1).peers.length ≤
      max wanted.limit TORRENT_PEERS_LIMIT :=
  get_peers_for_length_le _ info_hash _ wanted.limit

/-- Claim C3 (counterexample): the claim's hard cap of 74 peers fails: on the
concrete 75-peer swarm `tr75`, an announce requesting `Only 80` peers
returns 75 peers — more than `TORRENT_PEERS_LIMIT = 74`; the request was not
clamped to 74. -/
theorem announce_can_exceed_74_peers :
    ((tr75.announce 0 pAnn (.v4 9 9 9 9) (.Only 80) 0 false).1).peers.length = 75
    ∧ 74 < 75
    ∧ TORRENT_PEERS_LIMIT = 74 := by
  decide

/-- Claim C4: for every announce, the returned peer list contains no peer
whose socket address equals the announcing peer's socket address (after IP
assignment); in particular a peer's first announce on an otherwise empty
swarm returns an empty list. -/
theorem announce_excludes_announcing_peer (t : Tracker) (info_hash : Nat)
    (p : Peer) (remote : IpAddr) (wanted : PeersWanted) (cutoff : Nat)
    (dbFails : Bool) :
    (∀ q ∈ ((t.announce info_hash p remote wanted cutoff dbFails).1).peers,
        ¬ q.peer_addr =
          ((t.announce info_hash p remote wanted cutoff dbFails).2.1).peer_addr)
    ∧ (alLookup t.torrents info_hash = none →
        ((t.announce info_hash p remote wanted cutoff dbFails).1).peers = []) := by
  constructor
  · intro q hq
    exact mem_get_peers_for hq
  · intro hnone
    simp only [Tracker.announce, Tracker.upsert_peer_and_get_stats,
      Tracker.get_peers_for]
    rw [alLookup_torrentsUpsert, if_pos rfl, hnone]
    simp [Entry.upsert_peer, hasPeerId, Entry.get_peers_for_client,
      excludeAddr]

/-- Claim C4 (witness): on the fresh tracker `trEmpty` (no swarm for
info-hash 3), announcing `peerQ` returns an empty peer list. -/
theorem announce_excludes_announcing_peer_witness :
    (alLookup trEmpty.torrents 3 = none)
    ∧ ((trEmpty.announce 3 peerQ (.v4 126 0 0 9) .All 0 false).1).peers = [] :=
  ⟨by decide,
   (announce_excludes_announcing_peer trEmpty 3 peerQ (.v4 126 0 0 9) .All 0
      false).2 (by decide)⟩

/-- Claim C2: for every list of requested info-hashes, scrape returns a map
with exactly one entry per requested info-hash (lookup is `some` exactly on
requested hashes, and the response's key list has no duplicates); the entry
is the current `SwarmMetadata` when `authorize` succeeds, and the zeroed
`SwarmMetadata` both when `authorize` fails and when the info-hash is
unknown to the repository — unknown hashes are not an error and the two
zeroed cases are indistinguishable in the response. -/
theorem scrape_entry_characterization (t : Tracker) (info_hashes : List Nat)
    (cutoff : Nat) (h : Nat) :
    (h ∈ info_hashes →
      alLookup (t.scrape info_hashes cutoff) h =
        some (scrapeValue t h cutoff))
    ∧ (h ∉ info_hashes → alLookup (t.scrape info_hashes cutoff) h = none)
    ∧ (alKeys (t.scrape info_hashes cutoff)).Nodup
    ∧ (t.authorize h = .ok () →
        scrapeValue t h cutoff = t.get_swarm_metadata h cutoff)
    ∧ (∀ err, t.authorize h = .error err →
        scrapeValue t h cutoff = SwarmMetadata.zeroed)
    ∧ (alLookup t.torrents h = none →
        t.get_swarm_metadata h cutoff = SwarmMetadata.zeroed) := by
  refine ⟨?_, ?_, ?_, ?_, ?_, ?_⟩
  · intro hmem
    unfold Tracker.scrape
    rw [alLookup_scrapeLoop]
    simp [hmem]
  · intro hmem
    unfold Tracker.scrape
    rw [alLookup_scrapeLoop]
    simp [hmem, alLookup]
  · unfold Tracker.scrape
    exact nodup_alKeys_scrapeLoop t cutoff info_hashes [] (by simp [alKeys])
  · intro hok
    unfold scrapeValue
    rw [hok]
  · intro err herr
    unfold scrapeValue
    rw [herr]
  · intro hnone
    unfold Tracker.get_swarm_metadata
    rw [hnone]

/-- Claim C2 (witness): on the listed tracker `trListed` (info-hash 5
whitelisted with a swarm, 6 known but not whitelisted, 9 unknown): the scrape
of `[5, 6, 9]` answers the requested hash 5, omits the unrequested hash 7,
masks the unauthorized hash 6 with the zeroed record, and reports the zeroed
record for the unknown hash 9. -/
theorem scrape_entry_characterization_witness :
    ((5 : Nat) ∈ [5, 6, 9]
      ∧ alLookup (trListed.scrape [5, 6, 9] 0) 5 =
          some (scrapeValue trListed 5 0))
    ∧ ((7 : Nat) ∉ [5, 6, 9]
      ∧ alLookup (trListed.scrape [5, 6, 9] 0) 7 = none)
    ∧ (trListed.authorize 6 = .error (.TorrentNotWhitelisted 6)
      ∧ scrapeValue trListed 6 0 = SwarmMetadata.zeroed)
    ∧ (alLookup trListed.torrents 9 = none
      ∧ trListed.get_swarm_metadata 9 0 = SwarmMetadata.zeroed) :=
  ⟨⟨by decide,
    (scrape_entry_characterization trListed [5, 6, 9] 0 5).1 (by decide)⟩,
   ⟨by decide,
    (scrape_entry_characterization trListed [5, 6, 9] 0 7).2.1 (by decide)⟩,
   ⟨by decide,
    (scrape_entry_characterization trListed [5, 6, 9] 0 6).2.2.2.2.1
      (.TorrentNotWhitelisted 6) (by decide)⟩,
   ⟨by decide,
    (scrape_entry_characterization trListed [5, 6, 9] 0 9).2.2.2.2.2
      (by decide)⟩⟩

theorem authenticate_of_found (t : Tracker) (key : String) (now : Nat)
    (pk : PeerKey) (hpriv : t.config.private_flag = true)
    (hfind : keysFind t.keys key = some pk) :
    t.authenticate key now =
      (if check_keys_expiration_enabled t.config = true
       then verify_key_expiration pk now else .ok ()) := by
  unfold Tracker.authenticate Tracker.is_private Tracker.verify_auth_key
  rw [hpriv, if_pos rfl, hfind]
  unfold check_keys_expiration_enabled
  cases t.config.private_mode with
  | none => simp
  | some pm => cases hpm : pm.check_keys_expiration <;> simp [hpm]

/-- Claim C5: `authenticate(k)` returns `Ok` unconditionally when the tracker
is not private; when private, it fails with `UnableToReadKey` iff `k` is
absent from the in-memory key store; when `k` is present it fails with
`KeyExpired` iff expiration checking is enabled (`check_keys_expiration`,
defaulting to true when `private_mode` is absent) and `valid_until = some v`
with `now > v`; otherwise (permanent key, not yet expired, or checking
disabled) it returns `Ok`. -/
theorem authenticate_characterization (t : Tracker) (key : String)
    (now : Nat) :
    (t.config.private_flag = false → t.authenticate key now = .ok ())
    ∧ (t.config.private_flag = true → keysFind t.keys key = none →
        t.authenticate key now = .error (.UnableToReadKey key))
    ∧ (∀ pk, t.config.private_flag = true →
        keysFind t.keys key = some pk →
        ((t.authenticate key now = .error (.KeyExpired pk.key)) ↔
          (check_keys_expiration_enabled t.config = true ∧
            ∃ v, pk.valid_until = some v ∧ v < now)))
    ∧ (∀ pk, t.config.private_flag = true →
        keysFind t.keys key = some pk →
        (t.authenticate key now = .ok () ∨
          t.authenticate key now = .error (.KeyExpired pk.key))) := by
  refine ⟨?_, ?_, ?_, ?_⟩
  · intro hpub
    simp [Tracker.authenticate, Tracker.is_private, hpub]
  · intro hpriv hfind
    simp [Tracker.authenticate, Tracker.is_private, hpriv,
      Tracker.verify_auth_key, hfind]
  · intro pk hpriv hfind
    rw [authenticate_of_found t key now pk hpriv hfind]
    by_cases hen : check_keys_expiration_enabled t.config = true
    · rw [if_pos hen]
      unfold verify_key_expiration
      cases hv : pk.valid_until with
      | none => simp [hen, hv]
      | some v =>
          by_cases hlt : v < now
          · simp [hen, hv, hlt]
          · simp [hen, hv, hlt]
    · rw [if_neg hen]
      simp [hen]
  · intro pk hpriv hfind
    rw [authenticate_of_found t key now pk hpriv hfind]
    by_cases hen : check_keys_expiration_enabled t.config = true
    · rw [if_pos hen]
      unfold verify_key_expiration
      cases hv : pk.valid_until with
      | none => exact Or.inl rfl
      | some v =>
          by_cases hlt : v < now
          · exact Or.inr (by simp [hlt])
          · exact Or.inl (by simp [hlt])
    · rw [if_neg hen]
      exact Or.inl rfl

/-- Claim C5 (witness): the private tracker `trPriv` (no `private_mode`
section, so expiration checking defaults to on) holds `keyGood` expired at
instant 50; authenticating it at instant 100 fails with `KeyExpired`, while
the public tracker `trEmpty` accepts it unconditionally. -/
theorem authenticate_characterization_witness :
    (trPriv.config.private_flag = true
      ∧ keysFind trPriv.keys keyGood =
          some { key := keyGood, valid_until := some 50 }
      ∧ trPriv.authenticate keyGood 100 = .error (.KeyExpired keyGood))
    ∧ (trEmpty.config.private_flag = false
      ∧ trEmpty.authenticate keyGood 100 = .ok ()) :=
  ⟨⟨by decide, by decide,
    ((authenticate_characterization trPriv keyGood 100).2.2.1
        { key := keyGood, valid_until := some 50 } (by decide)
        (by decide)).mpr ⟨by decide, 50, rfl, by decide⟩⟩,
   ⟨by decide,
    (authenticate_characterization trEmpty keyGood 100).1 (by decide)⟩⟩

/-- Claim C6 (amended): for an `AddKeyRequest` with `opt_key = Some(s)` and
`opt_seconds_valid = Some(n)`, `add_peer_key` first checks `now + n`: when it
is not representable the call fails with `DurationOverflow{n}` — even when
the key string is also invalid, so `DurationOverflow` takes precedence over
`InvalidKey`; only for a representable `now + n` is the key string parsed,
failing with `InvalidKey{key}` when it is not a 32-character alphanumeric
token; on success it behaves as `add_auth_key(k, now + n)`. -/
theorem add_peer_key_checks_overflow_first (t : Tracker) (s : String)
    (n now : Nat) (genKey : String) (dbFails : Bool) :
    (U64MAX < now + n →
      t.add_peer_key (some s) (some n) now genKey dbFails =
        (.error (.DurationOverflow n), t))
    ∧ (now + n ≤ U64MAX → parse_key s = .error s →
        t.add_peer_key (some s) (some n) now genKey dbFails =
          (.error (.InvalidKey s), t))
    ∧ (∀ k, now + n ≤ U64MAX → parse_key s = .ok k →
        t.add_peer_key (some s) (some n) now genKey dbFails =
          (match t.add_auth_key k (some (now + n)) dbFails with
           | (.ok auth_key, t2) => (.ok auth_key, t2)
           | (.error _, t2) => (.error .DatabaseError, t2)))
    ∧ (parse_key s = .error s ↔
        ¬ (s.length = 32 ∧ s.data.all Char.isAlphanum = true))
    ∧ (now_add now n = none ↔ U64MAX < now + n) := by
  refine ⟨?_, ?_, ?_, ?_, ?_⟩
  · intro hover
    have hn : ¬ now + n ≤ U64MAX := by omega
    simp [Tracker.add_peer_key, now_add, hn]
  · intro hle herr
    simp [Tracker.add_peer_key, now_add, hle, herr]
  · intro k hle hok
    simp [Tracker.add_peer_key, now_add, hle, hok]
  · unfold parse_key
    by_cases hc : s.length = 32 ∧ s.data.all Char.isAlphanum = true
    · simp [hc]
    · simp [hc]
  · constructor
    · intro hnone
      unfold now_add at hnone
      by_cases hle : now + n ≤ U64MAX
      · rw [if_pos hle] at hnone
        cases hnone
      · omega
    · intro hover
      unfold now_add
      rw [if_neg (by omega)]

/-- Claim C6 (counterexample): at the concrete input with an invalid key
string (`keyBadStr`, 3 characters) and `seconds_valid = U64MAX` (so
`1 + U64MAX` overflows), `add_peer_key` returns `DurationOverflow`, not the
`InvalidKey` error the claim requires for every invalid key string. -/
theorem add_peer_key_overflow_beats_invalid_key :
    (trEmpty.add_peer_key (some keyBadStr) (some U64MAX) 1 keyGood false).1 =
      .error (.DurationOverflow U64MAX)
    ∧ parse_key keyBadStr = .error keyBadStr
    ∧ decide (PeerKeyError.DurationOverflow U64MAX =
        PeerKeyError.InvalidKey keyBadStr) = false := by
  refine ⟨by decide, by decide, by decide⟩

/-- Claim C6 (witness): with `now = 1` and `n = 5` (no overflow), the invalid
key string `keyBadStr` makes `add_peer_key` fail with `InvalidKey` and leave
the tracker unchanged. -/
theorem add_peer_key_checks_overflow_first_witness :
    (1 + 5 ≤ U64MAX ∧ parse_key keyBadStr = .error keyBadStr)
    ∧ trEmpty.add_peer_key (some keyBadStr) (some 5) 1 keyGood false =
        (.error (.InvalidKey keyBadStr), trEmpty) :=
  ⟨⟨by decide, by decide⟩,
   (add_peer_key_checks_overflow_first trEmpty keyBadStr 5 1 keyGood
      false).2.1 (by decide) (by decide)⟩

/-- Claim C7: for every write path that touches both persistence and memory
(`add_auth_key`, `generate_auth_key`, `remove_auth_key`,
`add_torrent_to_whitelist`, `remove_torrent_from_whitelist`): when the
persistence write fails the error is returned and the whole tracker state —
in particular the in-memory key map and whitelist — is left unchanged (the
memory mutation is not attempted); after a successful add and before a
successful remove, the key (or info-hash) is in the in-memory store iff it is
in persistence: a successful add puts it in both, a successful remove takes
it out of both. -/
theorem write_paths_db_failure_leaves_memory_unchanged (t : Tracker)
    (key : String) (vu : Option Nat) (newKey : String)
    (lifetime : Option Nat) (now : Nat) (info_hash : Nat) :
    (t.add_auth_key key vu true = (.error .failure, t))
    ∧ (t.generate_auth_key newKey lifetime now true = (.error .failure, t))
    ∧ (t.remove_auth_key key true = (.error .failure, t))
    ∧ (t.add_torrent_to_whitelist info_hash true = (.error .failure, t))
    ∧ (t.remove_torrent_from_whitelist info_hash true = (.error .failure, t))
    ∧ (keysFind ((t.add_auth_key key vu false).2).keys key =
        some { key := key, valid_until := vu }
      ∧ keysFind ((t.add_auth_key key vu false).2).dbKeys key =
        some { key := key, valid_until := vu })
    ∧ (keysFind ((t.remove_auth_key key false).2).keys key = none
      ∧ keysFind ((t.remove_auth_key key false).2).dbKeys key = none)
    ∧ (info_hash ∈ ((t.add_torrent_to_whitelist info_hash false).2).whitelist
      ∧ info_hash ∈
          ((t.add_torrent_to_whitelist info_hash false).2).dbWhitelist)
    ∧ (info_hash ∉
        ((t.remove_torrent_from_whitelist info_hash false).2).whitelist
      ∧ info_hash ∉
          ((t.remove_torrent_from_whitelist info_hash false).2).dbWhitelist) := by
  refine ⟨rfl, rfl, rfl, rfl, rfl, ⟨?_, ?_⟩, ⟨?_, ?_⟩, ⟨?_, ?_⟩, ⟨?_, ?_⟩⟩
  · exact keysFind_keysInsert t.keys { key := key, valid_until := vu }
  · exact keysFind_keysInsert t.dbKeys { key := key, valid_until := vu }
  · exact keysFind_keysErase t.keys key
  · exact keysFind_keysErase t.dbKeys key
  · by_cases hw : info_hash ∈ t.whitelist <;>
      simp [Tracker.add_torrent_to_whitelist, hw]
  · by_cases hw : info_hash ∈ t.dbWhitelist <;>
      simp [Tracker.add_torrent_to_whitelist, hw]
  · exact not_mem_natErase t.whitelist info_hash
  · exact not_mem_natErase t.dbWhitelist info_hash

/-- Claim C8: `announce` is total and never returns an error (its result type
is plain `AnnounceData`, in every mode): it performs no whitelist
authorization (its response is unchanged under any whitelist and any
`listed` setting), a failure of `save_persistent_torrent` is discarded
without affecting the returned `AnnounceData` or the peer repository, and
the persistence write is attempted only when
`persistent_torrent_completed_stat` is set and the `SwarmMetadata` changed
across the upsert (on failure the persisted state is simply left as it
was). -/
theorem announce_never_fails_and_discards_db_errors (t : Tracker)
    (info_hash : Nat) (p : Peer) (remote : IpAddr) (wanted : PeersWanted)
    (cutoff : Nat) (d1 d2 : Bool) (w : List Nat) (b : Bool) :
    ((t.announce info_hash p remote wanted cutoff d1).1 =
      (t.announce info_hash p remote wanted cutoff d2).1)
    ∧ (((t.announce info_hash p remote wanted cutoff d1).2.2).torrents =
        ((t.announce info_hash p remote wanted cutoff d2).2.2).torrents)
    ∧ ((Tracker.announce
          { t with
              whitelist := w
              config := { t.config with listed := b } }
          info_hash p remote wanted cutoff d1).1 =
        (t.announce info_hash p remote wanted cutoff d1).1)
    ∧ ((t.upsert_peer_and_get_stats info_hash p cutoff d1).2.2 =
        (decide (¬ ((torrentsGetSwarmMetadata t.torrents info_hash
                cutoff).getD SwarmMetadata.zeroed =
              (torrentsGetSwarmMetadata (torrentsUpsert t.torrents info_hash p)
                  info_hash cutoff).getD SwarmMetadata.zeroed)) &&
          t.config.tracker_policy.persistent_torrent_completed_stat))
    ∧ ((t.upsert_peer_and_get_stats info_hash p cutoff true).2.1.dbTorrents =
        t.dbTorrents)
    ∧ ((t.announce info_hash p remote wanted cutoff true).2.2.dbTorrents =
        t.dbTorrents) := by
  refine ⟨rfl, rfl, rfl, rfl, ?_, ?_⟩
  · simp [Tracker.upsert_peer_and_get_stats]
  · simp [Tracker.announce, Tracker.upsert_peer_and_get_stats]

/-- Claim C7 (witness): the theorem applied at the fresh tracker `trEmpty`
with `keyGood`: a failed persistence write returns the error and leaves the
state unchanged, and a successful add places the key in the in-memory
store. -/
theorem write_paths_db_failure_leaves_memory_unchanged_witness :
    trEmpty.add_auth_key keyGood (some 50) true = (.error .failure, trEmpty)
    ∧ keysFind ((trEmpty.add_auth_key keyGood (some 50) false).2).keys keyGood
        = some { key := keyGood, valid_until := some 50 } :=
  ⟨(write_paths_db_failure_leaves_memory_unchanged trEmpty keyGood (some 50)
      keyGood none 0 5).1,
   (write_paths_db_failure_leaves_memory_unchanged trEmpty keyGood (some 50)
      keyGood none 0 5).2.2.2.2.2.1.1⟩

/-- The model reproduces the in-crate scrape test
(`it_should_return_the_swarm_metadata_for_the_requested_file_if_the_tracker_has_that_torrent`):
after announcing the `complete_peer()` fixture from `126.0.0.10` and the
`incomplete_peer()` fixture (same peer id) from `126.0.0.11`, the swarm
metadata is `{complete: 0, downloaded: 0, incomplete: 1}` — the second
announce replaced the first because the peer table is keyed by peer id. -/
theorem model_reproduces_in_crate_scrape_test :
    (((trEmpty.announce 3 peerCompleteTest (.v4 126 0 0 10) .All 0
          false).2.2.announce 3 peerIncompleteTest (.v4 126 0 0 11) .All 0
        false).1).stats =
      { complete := 0, downloaded := 0, incomplete := 1 } := by
  decide

/-- The socket-address-keyed upsert written from the spec's words fails the
in-crate scrape test scenario: it keeps both announces as distinct peers and
reports `complete = 1` where the test expects `complete = 0`. -/
theorem addr_keyed_spec_variant_fails_in_crate_scrape_test :
    ((Entry.upsert_peer_addr_keyed_spec
        (Entry.upsert_peer_addr_keyed_spec { peers := [], downloaded := 0 }
          (peerCompleteTest.change_ip (.v4 126 0 0 10)))
        (peerIncompleteTest.change_ip
          (.v4 126 0 0 11))).get_swarm_metadata 0).complete = 1
    ∧ ((Entry.upsert_peer
        (Entry.upsert_peer { peers := [], downloaded := 0 }
          (peerCompleteTest.change_ip (.v4 126 0 0 10)))
        (peerIncompleteTest.change_ip
          (.v4 126 0 0 11))).get_swarm_metadata 0).complete = 0 := by
  refine ⟨by decide, by decide⟩

end Torrust
